import Mathlib

/-!
Shallow embedding of the `lib-express-joi-validation-middleware` library.

The adapter code lives in `src/lib/ValidatorBase.ts` (five single-section
validators plus `validateAll`) and `src/lib/errors/RequestValidationMiddlewareError.ts`;
a class-based variant `RequestValidator` appears in a second source file of the
repository. The external Joi engine is modelled abstractly: a schema is a
function from a candidate value and the effective `allowUnknown` switch to the
full list of constraint violations, and `validate` applies Joi's documented
option defaults (`abortEarly` defaults to `true`, i.e. stop at the first
violation, and `allowUnknown` defaults to `false`) to produce the
`error` component of its result. Request sections are values of an arbitrary
type `α`; an Express middleware `(req, res, next) => void` is embedded as a
function from the request to the final request object paired with the list of
calls made to the continuation `next`.
-/

namespace ExpressJoiValidation

/-- One constraint-violation record reported by the validation engine:
the offending field path and a human-readable message. -/
structure Violation where
  path : String
  message : String
deriving DecidableEq

/-- The `Joi.ValidationOptions` record restricted to the two switches the
specification recognizes; a field holding `none` models a field absent from
the JavaScript record. -/
structure ValidationOptions where
  abortEarly : Option Bool
  allowUnknown : Option Bool
deriving DecidableEq

/-- JavaScript object spread on a single optional field: the override's field
wins whenever it is present, otherwise the base field is kept. -/
def spreadField (base over : Option Bool) : Option Bool :=
  match over with
  | some b => some b
  | none => base

/-- JavaScript spread of two options records, as in the source expression
spreading a base record and then an override record: every field present in
the override replaces the base field, absent fields keep the base value. -/
def mergeOptions (base over : ValidationOptions) : ValidationOptions :=
  ⟨spreadField base.abortEarly over.abortEarly,
   spreadField base.allowUnknown over.allowUnknown⟩

/-- JavaScript spread of a base record with an optional override record:
spreading `undefined` leaves the base record unchanged. -/
def spreadOptions (base : ValidationOptions) (over : Option ValidationOptions) : ValidationOptions :=
  match over with
  | some o => mergeOptions base o
  | none => base

/-- `commonValidatorOptions` from `ValidatorBase.ts`: the baked-in baseline
sets only `abortEarly` to `false` (collect all errors). -/
def commonValidatorOptions : ValidationOptions :=
  ⟨some false, none⟩

/-- Effective `abortEarly` switch seen by the Joi engine for a possibly
missing options record: Joi's documented default is `true` (stop at the
first violation). -/
def effectiveAbortEarly (opts : Option ValidationOptions) : Bool :=
  (opts.bind ValidationOptions.abortEarly).getD true

/-- Effective `allowUnknown` switch seen by the Joi engine: Joi's documented
default is `false` (unknown fields are rejected). -/
def effectiveAllowUnknown (opts : Option ValidationOptions) : Bool :=
  (opts.bind ValidationOptions.allowUnknown).getD false

/-- Abstract model of a `Joi.ObjectSchema`: `check` returns the complete list
of violations of a candidate value given the effective `allowUnknown` switch,
and `convert` is the engine's coerced value on success paths. -/
structure ObjectSchema (α : Type) where
  check : α → Bool → List Violation
  convert : α → α

/-- Result of `schema.validate(value, options)`: the engine's converted value
and the `error` component, which is `none` exactly when there are no
violations. -/
structure JoiResult (α : Type) where
  value : α
  error : Option (List Violation)

/-- Model of `Joi`'s `validate`: compute the violations under the effective
`allowUnknown`, and report either nothing, only the first violation
(when the effective `abortEarly` is true), or all of them. -/
def ObjectSchema.validate {α : Type} (s : ObjectSchema α) (v : α)
    (opts : Option ValidationOptions) : JoiResult α :=
  let vs := s.check v (effectiveAllowUnknown opts)
  ⟨s.convert v,
   if vs.isEmpty then none
   else some (if effectiveAbortEarly opts then vs.take 1 else vs)⟩

/-- An Express request restricted to the five sections the middleware reads;
each section's value has the abstract type `α`. -/
structure Request (α : Type) where
  body : α
  cookies : α
  headers : α
  params : α
  query : α
deriving DecidableEq

/-- `IValidateAllSchema`: the schema set handed to `validateAll`; an unmapped
section holds `none`. -/
structure IValidateAllSchema (α : Type) where
  body : Option (ObjectSchema α)
  cookies : Option (ObjectSchema α)
  headers : Option (ObjectSchema α)
  params : Option (ObjectSchema α)
  query : Option (ObjectSchema α)

/-- `IValidateAllResponse`: per-section validation errors; `none` models the
JavaScript value `undefined` for a section that passed or had no schema. -/
structure IValidateAllResponse where
  body : Option (List Violation)
  cookies : Option (List Violation)
  headers : Option (List Violation)
  params : Option (List Violation)
  query : Option (List Violation)
deriving DecidableEq

/-- The dynamic value stored in the middleware error's `errors` field: either
bare diagnostics of one section (the shape the specification ascribes to
single-section validators) or a section-keyed record. The source code's
static type is erased at runtime, so the payload is modelled as this sum. -/
inductive ErrorsPayload
| raw (diagnostics : List Violation)
| keyed (response : IValidateAllResponse)
deriving DecidableEq

/-- Discriminator: does the payload carry bare diagnostics with no section
keying? -/
def ErrorsPayload.isRaw : ErrorsPayload → Bool
  | .raw _ => true
  | .keyed _ => false

/-- Modelled from the spec: the `ErrorSource` enum imported by
`RequestValidationMiddlewareError.ts` is not among the provided sources; the
spec fixes the error category tag of validation failures to "validation". -/
def ErrorSource.VALIDATION : String := "validation"

/-- Modelled from the spec: the `HttpStatusCode` enum imported by
`RequestValidationMiddlewareError.ts` is not among the provided sources; the
spec fixes the status code of validation failures at 400. -/
def HttpStatusCode.BAD_REQUEST : Nat := 400

/-- The classified middleware error, as populated by the
`RequestValidationMiddlewareError` constructor together with the `BaseError`
fields it sets through `super`. -/
structure RequestValidationMiddlewareError where
  category : String
  message : String
  statusCode : Nat
  errors : ErrorsPayload
deriving DecidableEq

/-- The `RequestValidationMiddlewareError` constructor: category from
`ErrorSource.VALIDATION`, message "Bad Request", status code
`HttpStatusCode.BAD_REQUEST`, and the given payload stored unmodified. -/
def mkRequestValidationMiddlewareError (errors : ErrorsPayload) : RequestValidationMiddlewareError :=
  ⟨ErrorSource.VALIDATION, "Bad Request", HttpStatusCode.BAD_REQUEST, errors⟩

/-- One call to the Express continuation `next`: either with no argument
(proceed) or with a middleware error (short-circuit to error handling). -/
inductive NextCall
| ok
| err (e : RequestValidationMiddlewareError)
deriving DecidableEq

/-- Does a continuation call carry an error? -/
def NextCall.isErrCall : NextCall → Bool
  | .ok => false
  | .err _ => true

/-- Was the continuation invoked with a middleware error somewhere in the
recorded trace? -/
def callsWithError (t : List NextCall) : Bool :=
  t.any NextCall.isErrCall

/-- `getBodyValidationErrors` from `ValidatorBase.ts`: run the schema on the
body with the given options and keep only the `error` component. -/
def getBodyValidationErrors {α : Type} (validatorSchema : ObjectSchema α) (body : α)
    (joiValidationOptions : Option ValidationOptions) : Option (List Violation) :=
  (validatorSchema.validate body joiValidationOptions).error

/-- `validateBody` from `ValidatorBase.ts`: merge the baseline options with
the caller's, validate `req.body`, and call `next` once, with a
`RequestValidationMiddlewareError` keyed by the body section on failure. -/
def validateBody {α : Type} (validatorSchema : ObjectSchema α)
    (joiValidationOptions : Option ValidationOptions) (req : Request α) :
    Request α × List NextCall :=
  let validationErrors := getBodyValidationErrors validatorSchema req.body
    (some (spreadOptions commonValidatorOptions joiValidationOptions))
  let err : IValidateAllResponse := ⟨validationErrors, none, none, none, none⟩
  if validationErrors.isSome then
    (req, [NextCall.err (mkRequestValidationMiddlewareError (ErrorsPayload.keyed err))])
  else
    (req, [NextCall.ok])

/-- `getCookiesValidationErrors` from `ValidatorBase.ts`. -/
def getCookiesValidationErrors {α : Type} (validatorSchema : ObjectSchema α) (cookies : α)
    (joiValidationOptions : Option ValidationOptions) : Option (List Violation) :=
  (validatorSchema.validate cookies joiValidationOptions).error

/-- `validateCookies` from `ValidatorBase.ts`. -/
def validateCookies {α : Type} (validatorSchema : ObjectSchema α)
    (joiValidationOptions : Option ValidationOptions) (req : Request α) :
    Request α × List NextCall :=
  let validationErrors := getCookiesValidationErrors validatorSchema req.cookies
    (some (spreadOptions commonValidatorOptions joiValidationOptions))
  let err : IValidateAllResponse := ⟨none, validationErrors, none, none, none⟩
  if validationErrors.isSome then
    (req, [NextCall.err (mkRequestValidationMiddlewareError (ErrorsPayload.keyed err))])
  else
    (req, [NextCall.ok])

/-- `getHeadersValidationErrors` from `ValidatorBase.ts`. -/
def getHeadersValidationErrors {α : Type} (validatorSchema : ObjectSchema α) (headers : α)
    (joiValidationOptions : Option ValidationOptions) : Option (List Violation) :=
  (validatorSchema.validate headers joiValidationOptions).error

/-- `validateHeaders` from `ValidatorBase.ts`. -/
def validateHeaders {α : Type} (validatorSchema : ObjectSchema α)
    (joiValidationOptions : Option ValidationOptions) (req : Request α) :
    Request α × List NextCall :=
  let validationErrors := getHeadersValidationErrors validatorSchema req.headers
    (some (spreadOptions commonValidatorOptions joiValidationOptions))
  let err : IValidateAllResponse := ⟨none, none, validationErrors, none, none⟩
  if validationErrors.isSome then
    (req, [NextCall.err (mkRequestValidationMiddlewareError (ErrorsPayload.keyed err))])
  else
    (req, [NextCall.ok])

/-- `getParamsValidationErrors` from `ValidatorBase.ts`. -/
def getParamsValidationErrors {α : Type} (validatorSchema : ObjectSchema α) (params : α)
    (joiValidationOptions : Option ValidationOptions) : Option (List Violation) :=
  (validatorSchema.validate params joiValidationOptions).error

/-- `validateParams` from `ValidatorBase.ts`. -/
def validateParams {α : Type} (validatorSchema : ObjectSchema α)
    (joiValidationOptions : Option ValidationOptions) (req : Request α) :
    Request α × List NextCall :=
  let validationErrors := getParamsValidationErrors validatorSchema req.params
    (some (spreadOptions commonValidatorOptions joiValidationOptions))
  let err : IValidateAllResponse := ⟨none, none, none, validationErrors, none⟩
  if validationErrors.isSome then
    (req, [NextCall.err (mkRequestValidationMiddlewareError (ErrorsPayload.keyed err))])
  else
    (req, [NextCall.ok])

/-- `getQueryValidationErrors` from `ValidatorBase.ts`. -/
def getQueryValidationErrors {α : Type} (validatorSchema : ObjectSchema α) (query : α)
    (joiValidationOptions : Option ValidationOptions) : Option (List Violation) :=
  (validatorSchema.validate query joiValidationOptions).error

/-- `validateQuery` from `ValidatorBase.ts`. -/
def validateQuery {α : Type} (validatorSchema : ObjectSchema α)
    (joiValidationOptions : Option ValidationOptions) (req : Request α) :
    Request α × List NextCall :=
  let validationErrors := getQueryValidationErrors validatorSchema req.query
    (some (spreadOptions commonValidatorOptions joiValidationOptions))
  let err : IValidateAllResponse := ⟨none, none, none, none, validationErrors⟩
  if validationErrors.isSome then
    (req, [NextCall.err (mkRequestValidationMiddlewareError (ErrorsPayload.keyed err))])
  else
    (req, [NextCall.ok])

/-- `getAllValidationErrors` from `ValidatorBase.ts`: run every mapped
section's schema on the corresponding request value with the options as
received (optional chaining makes an unmapped section contribute
`undefined`), and return the per-section record when at least one section
produced an error, otherwise `undefined`. -/
def getAllValidationErrors {α : Type} (validatorSchema : IValidateAllSchema α)
    (request : Request α) (joiValidationOptions : Option ValidationOptions) :
    Option IValidateAllResponse :=
  let validateAllResponse : IValidateAllResponse :=
    ⟨validatorSchema.body.bind fun s => (s.validate request.body joiValidationOptions).error,
     validatorSchema.cookies.bind fun s => (s.validate request.cookies joiValidationOptions).error,
     validatorSchema.headers.bind fun s => (s.validate request.headers joiValidationOptions).error,
     validatorSchema.params.bind fun s => (s.validate request.params joiValidationOptions).error,
     validatorSchema.query.bind fun s => (s.validate request.query joiValidationOptions).error⟩
  if validateAllResponse.body.isSome || validateAllResponse.cookies.isSome
      || validateAllResponse.headers.isSome || validateAllResponse.params.isSome
      || validateAllResponse.query.isSome then
    some validateAllResponse
  else
    none

/-- `validateAll` from `ValidatorBase.ts`: note that the caller's options are
passed through to `getAllValidationErrors` as received, without spreading
`commonValidatorOptions` into them. -/
def validateAll {α : Type} (validatorSchema : IValidateAllSchema α)
    (joiValidationOptions : Option ValidationOptions) (req : Request α) :
    Request α × List NextCall :=
  match getAllValidationErrors validatorSchema req joiValidationOptions with
  | some validateAllResponse =>
      (req, [NextCall.err (mkRequestValidationMiddlewareError (ErrorsPayload.keyed validateAllResponse))])
  | none => (req, [NextCall.ok])

/-- `defaultValidationOptions` set by the `RequestValidator` constructor in
the class-based source file. -/
def RequestValidator.defaultValidationOptions : ValidationOptions :=
  ⟨some false, none⟩

/-- `commonValidationOptions` computed by the `RequestValidator` constructor:
the constructor-time override, when given, is spread over the default. -/
def RequestValidator.commonValidationOptions (ctorOpts : Option ValidationOptions) : ValidationOptions :=
  match ctorOpts with
  | some o => mergeOptions RequestValidator.defaultValidationOptions o
  | none => RequestValidator.defaultValidationOptions

/-- `RequestValidator.validateAll` from the class-based source file: unlike
the plain `validateAll`, it spreads the instance's merged options under the
call-time override before invoking `getAllValidationErrors`. -/
def RequestValidator.validateAll {α : Type} (ctorOpts : Option ValidationOptions)
    (validatorSchema : IValidateAllSchema α) (allValidationOptions : Option ValidationOptions)
    (req : Request α) : Request α × List NextCall :=
  match getAllValidationErrors validatorSchema req
      (some (spreadOptions (RequestValidator.commonValidationOptions ctorOpts) allValidationOptions)) with
  | some validateAllResponse =>
      (req, [NextCall.err (mkRequestValidationMiddlewareError (ErrorsPayload.keyed validateAllResponse))])
  | none => (req, [NextCall.ok])

/-- The five request sections the middleware knows about. -/
inductive Sect
| body
| cookies
| headers
| params
| query
deriving DecidableEq

/-- Read one section's value out of a request. -/
def Request.get {α : Type} (r : Request α) : Sect → α
  | .body => r.body
  | .cookies => r.cookies
  | .headers => r.headers
  | .params => r.params
  | .query => r.query

/-- Look up one section's schema in a schema set. -/
def IValidateAllSchema.get {α : Type} (s : IValidateAllSchema α) : Sect → Option (ObjectSchema α)
  | .body => s.body
  | .cookies => s.cookies
  | .headers => s.headers
  | .params => s.params
  | .query => s.query

/-- Read one section's entry out of a per-section error record. -/
def IValidateAllResponse.get (r : IValidateAllResponse) : Sect → Option (List Violation)
  | .body => r.body
  | .cookies => r.cookies
  | .headers => r.headers
  | .params => r.params
  | .query => r.query

/-- Outcome of one section's evaluation inside `getAllValidationErrors`:
`none` when the section has no schema or its schema reports no error. -/
def sectionOutcome {α : Type} (validatorSchema : IValidateAllSchema α) (request : Request α)
    (joiValidationOptions : Option ValidationOptions) (s : Sect) : Option (List Violation) :=
  (validatorSchema.get s).bind fun sc => (sc.validate (request.get s) joiValidationOptions).error

/-- The per-section record built by `getAllValidationErrors` before the
emptiness test. -/
def aggregatePayload {α : Type} (validatorSchema : IValidateAllSchema α) (request : Request α)
    (joiValidationOptions : Option ValidationOptions) : IValidateAllResponse :=
  ⟨validatorSchema.body.bind fun s => (s.validate request.body joiValidationOptions).error,
   validatorSchema.cookies.bind fun s => (s.validate request.cookies joiValidationOptions).error,
   validatorSchema.headers.bind fun s => (s.validate request.headers joiValidationOptions).error,
   validatorSchema.params.bind fun s => (s.validate request.params joiValidationOptions).error,
   validatorSchema.query.bind fun s => (s.validate request.query joiValidationOptions).error⟩

/-- Replace a schema's conversion function, keeping its constraint checks:
used to state that the adapters discard the engine's converted value. -/
def ObjectSchema.withConvert {α : Type} (s : ObjectSchema α) (f : α → α) : ObjectSchema α :=
  ⟨s.check, f⟩

/-- Replace every mapped schema's conversion function in a schema set. -/
def IValidateAllSchema.mapConvert {α : Type} (sch : IValidateAllSchema α) (f : α → α) :
    IValidateAllSchema α :=
  ⟨sch.body.map fun s => s.withConvert f,
   sch.cookies.map fun s => s.withConvert f,
   sch.headers.map fun s => s.withConvert f,
   sch.params.map fun s => s.withConvert f,
   sch.query.map fun s => s.withConvert f⟩

/-- Errors payload that the specification ascribes to a failing single-section
validator: the one section's bare diagnostics, with no section keying. -/
def singleSectionPayloadSpec (diagnostics : List Violation) : ErrorsPayload :=
  ErrorsPayload.raw diagnostics

/-- Concrete diagnostic: a missing `name` field. -/
def vioName : Violation := ⟨"name", "name is required"⟩

/-- Concrete diagnostic: a missing `email` field. -/
def vioEmail : Violation := ⟨"email", "email is required"⟩

/-- Concrete schema whose evaluation always reports two violations, modelling
an object schema with two required fields both missing. -/
def twoFieldSchema : ObjectSchema Nat :=
  ⟨fun _ _ => [vioName, vioEmail], id⟩

/-- Concrete schema reporting one violation exactly on the value 0. -/
def failOnZeroSchema : ObjectSchema Nat :=
  ⟨fun v _ => if v = 0 then [vioName] else [], id⟩

/-- Concrete schema accepting every value. -/
def passSchema : ObjectSchema Nat :=
  ⟨fun _ _ => [], id⟩

/-- Concrete request whose every section holds 0. -/
def reqZero : Request Nat := ⟨0, 0, 0, 0, 0⟩

/-- Concrete schema set mapping only the body section. -/
def bodyOnlySchemaSet : IValidateAllSchema Nat :=
  ⟨some twoFieldSchema, none, none, none, none⟩

/-- Concrete schema set where, on `reqZero`, body and cookies fail, headers
passes, and params and query are unmapped. -/
def mixedSchemaSet : IValidateAllSchema Nat :=
  ⟨some failOnZeroSchema, some failOnZeroSchema, some passSchema, none, none⟩

/-- The empty schema set: no section is mapped to a schema. -/
def emptySchemaSet {α : Type} : IValidateAllSchema α :=
  ⟨none, none, none, none, none⟩

theorem aggregatePayload_get {α : Type} (sch : IValidateAllSchema α) (req : Request α)
    (o : Option ValidationOptions) (s : Sect) :
    (aggregatePayload sch req o).get s = sectionOutcome sch req o s := by
  cases s <;> rfl

theorem getAllValidationErrors_eq {α : Type} (sch : IValidateAllSchema α) (req : Request α)
    (o : Option ValidationOptions) :
    getAllValidationErrors sch req o =
      (if (aggregatePayload sch req o).body.isSome || (aggregatePayload sch req o).cookies.isSome
          || (aggregatePayload sch req o).headers.isSome || (aggregatePayload sch req o).params.isSome
          || (aggregatePayload sch req o).query.isSome then
        some (aggregatePayload sch req o)
      else none) := rfl

theorem getAllValidationErrors_isSome_of_outcome {α : Type} (sch : IValidateAllSchema α)
    (req : Request α) (o : Option ValidationOptions) (s : Sect) (d : List Violation)
    (h : sectionOutcome sch req o s = some d) :
    getAllValidationErrors sch req o = some (aggregatePayload sch req o) := by
  rw [getAllValidationErrors_eq]
  have h' := (aggregatePayload_get sch req o s).trans h
  cases s <;>
    simp only [IValidateAllResponse.get] at h' <;>
    simp [h']

theorem getAllValidationErrors_eq_none {α : Type} (sch : IValidateAllSchema α)
    (req : Request α) (o : Option ValidationOptions)
    (h : ∀ s : Sect, sectionOutcome sch req o s = none) :
    getAllValidationErrors sch req o = none := by
  rw [getAllValidationErrors_eq]
  have hb := (aggregatePayload_get sch req o .body).trans (h .body)
  have hc := (aggregatePayload_get sch req o .cookies).trans (h .cookies)
  have hh := (aggregatePayload_get sch req o .headers).trans (h .headers)
  have hp := (aggregatePayload_get sch req o .params).trans (h .params)
  have hq := (aggregatePayload_get sch req o .query).trans (h .query)
  simp only [IValidateAllResponse.get] at hb hc hh hp hq
  simp [hb, hc, hh, hp, hq]

theorem getAllValidationErrors_isSome_iff {α : Type} (sch : IValidateAllSchema α)
    (req : Request α) (o : Option ValidationOptions) :
    (getAllValidationErrors sch req o).isSome = true ↔
      ∃ s : Sect, (sectionOutcome sch req o s).isSome = true := by
  rw [getAllValidationErrors_eq]
  split
  case isTrue h =>
    simp only [Option.isSome_some, true_iff]
    simp only [Bool.or_eq_true] at h
    rcases h with ((((h | h) | h) | h) | h)
    · exact ⟨.body, by rw [aggregatePayload_get sch req o .body |>.symm]; exact h⟩
    · exact ⟨.cookies, by rw [aggregatePayload_get sch req o .cookies |>.symm]; exact h⟩
    · exact ⟨.headers, by rw [aggregatePayload_get sch req o .headers |>.symm]; exact h⟩
    · exact ⟨.params, by rw [aggregatePayload_get sch req o .params |>.symm]; exact h⟩
    · exact ⟨.query, by rw [aggregatePayload_get sch req o .query |>.symm]; exact h⟩
  case isFalse h =>
    simp only [Option.isSome_none]
    constructor
    · intro hf
      exact absurd hf (by simp)
    · rintro ⟨s, hs⟩
      rw [aggregatePayload_get sch req o s |>.symm] at hs
      refine absurd ?_ h
      simp only [Bool.or_eq_true]
      cases s
      · exact Or.inl (Or.inl (Or.inl (Or.inl hs)))
      · exact Or.inl (Or.inl (Or.inl (Or.inr hs)))
      · exact Or.inl (Or.inl (Or.inr hs))
      · exact Or.inl (Or.inr hs)
      · exact Or.inr hs

theorem sectionOutcome_isSome_iff {α : Type} (sch : IValidateAllSchema α)
    (req : Request α) (o : Option ValidationOptions) (s : Sect) :
    (sectionOutcome sch req o s).isSome = true ↔
      ∃ sc : ObjectSchema α, sch.get s = some sc ∧
        ((sc.validate (req.get s) o).error).isSome = true := by
  unfold sectionOutcome
  cases h : sch.get s with
  | none => simp
  | some sc => simp [h]

theorem validate_withConvert_error {α : Type} (s : ObjectSchema α) (f : α → α) (v : α)
    (o : Option ValidationOptions) :
    ((s.withConvert f).validate v o).error = (s.validate v o).error := rfl

theorem bind_withConvert_error {α : Type} (os : Option (ObjectSchema α)) (f : α → α) (v : α)
    (o : Option ValidationOptions) :
    ((os.map fun s => s.withConvert f).bind fun s => (s.validate v o).error) =
      os.bind fun s => (s.validate v o).error := by
  cases os <;> rfl

/-- C10: for the Aggregate Validator over the empty SchemaSet, every request
passes: the continuation is called once with no error, whatever the request
and options are. -/
theorem validateAll_emptySchemaSet_passes {α : Type} (req : Request α)
    (o : Option ValidationOptions) :
    validateAll emptySchemaSet o req = (req, [NextCall.ok]) := rfl

/-- C8: each of the six pipeline steps invokes the continuation exactly once
for every request, schema and option set. -/
theorem next_called_exactly_once {α : Type} :
    (∀ (s : ObjectSchema α) (o : Option ValidationOptions) (req : Request α),
      (validateBody s o req).2.length = 1) ∧
    (∀ (s : ObjectSchema α) (o : Option ValidationOptions) (req : Request α),
      (validateCookies s o req).2.length = 1) ∧
    (∀ (s : ObjectSchema α) (o : Option ValidationOptions) (req : Request α),
      (validateHeaders s o req).2.length = 1) ∧
    (∀ (s : ObjectSchema α) (o : Option ValidationOptions) (req : Request α),
      (validateParams s o req).2.length = 1) ∧
    (∀ (s : ObjectSchema α) (o : Option ValidationOptions) (req : Request α),
      (validateQuery s o req).2.length = 1) ∧
    (∀ (sch : IValidateAllSchema α) (o : Option ValidationOptions) (req : Request α),
      (validateAll sch o req).2.length = 1) := by
  refine ⟨?_, ?_, ?_, ?_, ?_, ?_⟩ <;> intro s o req
  · simp only [validateBody]; split <;> rfl
  · simp only [validateCookies]; split <;> rfl
  · simp only [validateHeaders]; split <;> rfl
  · simp only [validateParams]; split <;> rfl
  · simp only [validateQuery]; split <;> rfl
  · simp only [validateAll]; split <;> rfl

/-- C9: no validator modifies the request, and every validator's behaviour is
unchanged when the schemas' conversion functions are replaced — the adapters
read only the error component of the engine's outcome and discard its
converted value. -/
theorem request_unmodified {α : Type} (f : α → α) :
    (∀ (s : ObjectSchema α) (o : Option ValidationOptions) (req : Request α),
      (validateBody s o req).1 = req ∧ validateBody (s.withConvert f) o req = validateBody s o req) ∧
    (∀ (s : ObjectSchema α) (o : Option ValidationOptions) (req : Request α),
      (validateCookies s o req).1 = req ∧ validateCookies (s.withConvert f) o req = validateCookies s o req) ∧
    (∀ (s : ObjectSchema α) (o : Option ValidationOptions) (req : Request α),
      (validateHeaders s o req).1 = req ∧ validateHeaders (s.withConvert f) o req = validateHeaders s o req) ∧
    (∀ (s : ObjectSchema α) (o : Option ValidationOptions) (req : Request α),
      (validateParams s o req).1 = req ∧ validateParams (s.withConvert f) o req = validateParams s o req) ∧
    (∀ (s : ObjectSchema α) (o : Option ValidationOptions) (req : Request α),
      (validateQuery s o req).1 = req ∧ validateQuery (s.withConvert f) o req = validateQuery s o req) ∧
    (∀ (sch : IValidateAllSchema α) (o : Option ValidationOptions) (req : Request α),
      (validateAll sch o req).1 = req ∧ validateAll (sch.mapConvert f) o req = validateAll sch o req) := by
  refine ⟨?_, ?_, ?_, ?_, ?_, ?_⟩ <;> intro s o req <;> constructor
  · simp only [validateBody]; split <;> rfl
  · rfl
  · simp only [validateCookies]; split <;> rfl
  · rfl
  · simp only [validateHeaders]; split <;> rfl
  · rfl
  · simp only [validateParams]; split <;> rfl
  · rfl
  · simp only [validateQuery]; split <;> rfl
  · rfl
  · simp only [validateAll]; split <;> rfl
  · simp only [validateAll, getAllValidationErrors, IValidateAllSchema.mapConvert,
      bind_withConvert_error]

/-- C2: for every request, a MiddlewareError reaches the continuation exactly
when a section holding a Schema reports a failure on that request's value:
for each single-section validator this is its own schema's verdict on its
section, and for the Aggregate Validator it is the existence of a mapped
section whose schema evaluation reports an error; unmapped sections never
contribute. -/
theorem middleware_error_iff_failure {α : Type} :
    (∀ (s : ObjectSchema α) (o : Option ValidationOptions) (req : Request α),
      callsWithError (validateBody s o req).2 = true ↔
        ((s.validate req.body (some (spreadOptions commonValidatorOptions o))).error).isSome = true) ∧
    (∀ (s : ObjectSchema α) (o : Option ValidationOptions) (req : Request α),
      callsWithError (validateCookies s o req).2 = true ↔
        ((s.validate req.cookies (some (spreadOptions commonValidatorOptions o))).error).isSome = true) ∧
    (∀ (s : ObjectSchema α) (o : Option ValidationOptions) (req : Request α),
      callsWithError (validateHeaders s o req).2 = true ↔
        ((s.validate req.headers (some (spreadOptions commonValidatorOptions o))).error).isSome = true) ∧
    (∀ (s : ObjectSchema α) (o : Option ValidationOptions) (req : Request α),
      callsWithError (validateParams s o req).2 = true ↔
        ((s.validate req.params (some (spreadOptions commonValidatorOptions o))).error).isSome = true) ∧
    (∀ (s : ObjectSchema α) (o : Option ValidationOptions) (req : Request α),
      callsWithError (validateQuery s o req).2 = true ↔
        ((s.validate req.query (some (spreadOptions commonValidatorOptions o))).error).isSome = true) ∧
    (∀ (sch : IValidateAllSchema α) (o : Option ValidationOptions) (req : Request α),
      callsWithError (validateAll sch o req).2 = true ↔
        ∃ (sec : Sect) (sc : ObjectSchema α), sch.get sec = some sc ∧
          ((sc.validate (req.get sec) o).error).isSome = true) := by
  refine ⟨?_, ?_, ?_, ?_, ?_, ?_⟩
  · intro s o req
    simp only [validateBody, getBodyValidationErrors]
    split
    case isTrue h => simp [callsWithError, NextCall.isErrCall, h]
    case isFalse h => simp [callsWithError, NextCall.isErrCall, h]
  · intro s o req
    simp only [validateCookies, getCookiesValidationErrors]
    split
    case isTrue h => simp [callsWithError, NextCall.isErrCall, h]
    case isFalse h => simp [callsWithError, NextCall.isErrCall, h]
  · intro s o req
    simp only [validateHeaders, getHeadersValidationErrors]
    split
    case isTrue h => simp [callsWithError, NextCall.isErrCall, h]
    case isFalse h => simp [callsWithError, NextCall.isErrCall, h]
  · intro s o req
    simp only [validateParams, getParamsValidationErrors]
    split
    case isTrue h => simp [callsWithError, NextCall.isErrCall, h]
    case isFalse h => simp [callsWithError, NextCall.isErrCall, h]
  · intro s o req
    simp only [validateQuery, getQueryValidationErrors]
    split
    case isTrue h => simp [callsWithError, NextCall.isErrCall, h]
    case isFalse h => simp [callsWithError, NextCall.isErrCall, h]
  · intro sch o req
    have hiff := getAllValidationErrors_isSome_iff sch req o
    cases h : getAllValidationErrors sch req o with
    | some r =>
      rw [h] at hiff
      simp only [Option.isSome_some, true_iff] at hiff
      obtain ⟨sec, hsec⟩ := hiff
      obtain ⟨sc, hsc, herr⟩ := (sectionOutcome_isSome_iff sch req o sec).mp hsec
      simp only [validateAll, h]
      constructor
      · intro _
        exact ⟨sec, sc, hsc, herr⟩
      · intro _
        rfl
    | none =>
      rw [h] at hiff
      simp only [Option.isSome_none] at hiff
      simp only [validateAll, h]
      constructor
      · intro hcall
        exact absurd hcall (by simp [callsWithError, NextCall.isErrCall])
      · rintro ⟨sec, sc, hsc, herr⟩
        have hout : (sectionOutcome sch req o sec).isSome = true :=
          (sectionOutcome_isSome_iff sch req o sec).mpr ⟨sc, hsc, herr⟩
        exact absurd (hiff.mpr ⟨sec, hout⟩) (by simp)

/-- C3: whenever section S's schema reports a failure on the request, the
single-section validator for S calls the continuation with a
MiddlewareError whose errors payload maps exactly the section S to that
section's diagnostics. -/
theorem section_error_keyed_by_section {α : Type} (s : ObjectSchema α)
    (o : Option ValidationOptions) (req : Request α) (ds : List Violation) :
    ((s.validate req.body (some (spreadOptions commonValidatorOptions o))).error = some ds →
      (validateBody s o req).2 = [NextCall.err (mkRequestValidationMiddlewareError
        (ErrorsPayload.keyed ⟨some ds, none, none, none, none⟩))]) ∧
    ((s.validate req.cookies (some (spreadOptions commonValidatorOptions o))).error = some ds →
      (validateCookies s o req).2 = [NextCall.err (mkRequestValidationMiddlewareError
        (ErrorsPayload.keyed ⟨none, some ds, none, none, none⟩))]) ∧
    ((s.validate req.headers (some (spreadOptions commonValidatorOptions o))).error = some ds →
      (validateHeaders s o req).2 = [NextCall.err (mkRequestValidationMiddlewareError
        (ErrorsPayload.keyed ⟨none, none, some ds, none, none⟩))]) ∧
    ((s.validate req.params (some (spreadOptions commonValidatorOptions o))).error = some ds →
      (validateParams s o req).2 = [NextCall.err (mkRequestValidationMiddlewareError
        (ErrorsPayload.keyed ⟨none, none, none, some ds, none⟩))]) ∧
    ((s.validate req.query (some (spreadOptions commonValidatorOptions o))).error = some ds →
      (validateQuery s o req).2 = [NextCall.err (mkRequestValidationMiddlewareError
        (ErrorsPayload.keyed ⟨none, none, none, none, some ds⟩))]) := by
  refine ⟨?_, ?_, ?_, ?_, ?_⟩ <;> intro h
  · simp [validateBody, getBodyValidationErrors, h]
  · simp [validateCookies, getCookiesValidationErrors, h]
  · simp [validateHeaders, getHeadersValidationErrors, h]
  · simp [validateParams, getParamsValidationErrors, h]
  · simp [validateQuery, getQueryValidationErrors, h]

/-- Witness for C3: on the concrete request `reqZero` and the schema failing
on 0, each of the five single-section validators emits the error keyed by its
own section. -/
theorem section_error_keyed_by_section_witness :
    (validateBody failOnZeroSchema none reqZero).2 = [NextCall.err (mkRequestValidationMiddlewareError
      (ErrorsPayload.keyed ⟨some [vioName], none, none, none, none⟩))] ∧
    (validateCookies failOnZeroSchema none reqZero).2 = [NextCall.err (mkRequestValidationMiddlewareError
      (ErrorsPayload.keyed ⟨none, some [vioName], none, none, none⟩))] ∧
    (validateHeaders failOnZeroSchema none reqZero).2 = [NextCall.err (mkRequestValidationMiddlewareError
      (ErrorsPayload.keyed ⟨none, none, some [vioName], none, none⟩))] ∧
    (validateParams failOnZeroSchema none reqZero).2 = [NextCall.err (mkRequestValidationMiddlewareError
      (ErrorsPayload.keyed ⟨none, none, none, some [vioName], none⟩))] ∧
    (validateQuery failOnZeroSchema none reqZero).2 = [NextCall.err (mkRequestValidationMiddlewareError
      (ErrorsPayload.keyed ⟨none, none, none, none, some [vioName]⟩))] :=
  ⟨(section_error_keyed_by_section failOnZeroSchema none reqZero [vioName]).1 (by decide),
   (section_error_keyed_by_section failOnZeroSchema none reqZero [vioName]).2.1 (by decide),
   (section_error_keyed_by_section failOnZeroSchema none reqZero [vioName]).2.2.1 (by decide),
   (section_error_keyed_by_section failOnZeroSchema none reqZero [vioName]).2.2.2.1 (by decide),
   (section_error_keyed_by_section failOnZeroSchema none reqZero [vioName]).2.2.2.2 (by decide)⟩

/-- C5: the options merger is a pure total function: with no override it
returns the baseline unchanged, and with an override every field present in
the override replaces the baseline field while absent fields keep the
baseline value. -/
theorem options_merger_contract :
    spreadOptions commonValidatorOptions none = commonValidatorOptions ∧
    (∀ o : ValidationOptions,
      (∀ b, o.abortEarly = some b →
        (spreadOptions commonValidatorOptions (some o)).abortEarly = some b) ∧
      (o.abortEarly = none →
        (spreadOptions commonValidatorOptions (some o)).abortEarly = commonValidatorOptions.abortEarly) ∧
      (∀ b, o.allowUnknown = some b →
        (spreadOptions commonValidatorOptions (some o)).allowUnknown = some b) ∧
      (o.allowUnknown = none →
        (spreadOptions commonValidatorOptions (some o)).allowUnknown = commonValidatorOptions.allowUnknown)) := by
  refine ⟨rfl, fun o => ⟨?_, ?_, ?_, ?_⟩⟩
  · intro b hb
    simp [spreadOptions, mergeOptions, spreadField, hb]
  · intro hb
    simp [spreadOptions, mergeOptions, spreadField, hb]
  · intro b hb
    simp [spreadOptions, mergeOptions, spreadField, hb]
  · intro hb
    simp [spreadOptions, mergeOptions, spreadField, hb]

/-- Witness for C5: an override setting only `abortEarly` replaces exactly
that field and keeps the baseline `allowUnknown`; the missing override
returns the baseline unchanged. -/
theorem options_merger_contract_witness :
    (spreadOptions commonValidatorOptions (some ⟨some true, none⟩)).abortEarly = some true ∧
    (spreadOptions commonValidatorOptions (some ⟨some true, none⟩)).allowUnknown =
      commonValidatorOptions.allowUnknown ∧
    spreadOptions commonValidatorOptions none = commonValidatorOptions :=
  ⟨(options_merger_contract.2 ⟨some true, none⟩).1 true rfl,
   (options_merger_contract.2 ⟨some true, none⟩).2.2.2 rfl,
   options_merger_contract.1⟩

/-- C6: the error constructor fixes the category to "validation", the message
to "Bad Request" and the status code to 400 and stores the payload
unmodified, and every MiddlewareError any of the six validators hands to the
continuation carries those fixed fields. -/
theorem middleware_error_fixed_fields {α : Type} :
    (∀ p : ErrorsPayload,
      (mkRequestValidationMiddlewareError p).category = "validation" ∧
      (mkRequestValidationMiddlewareError p).message = "Bad Request" ∧
      (mkRequestValidationMiddlewareError p).statusCode = 400 ∧
      (mkRequestValidationMiddlewareError p).errors = p) ∧
    (∀ (s : ObjectSchema α) (o : Option ValidationOptions) (req : Request α)
        (e : RequestValidationMiddlewareError), NextCall.err e ∈ (validateBody s o req).2 →
      e.category = "validation" ∧ e.message = "Bad Request" ∧ e.statusCode = 400) ∧
    (∀ (s : ObjectSchema α) (o : Option ValidationOptions) (req : Request α)
        (e : RequestValidationMiddlewareError), NextCall.err e ∈ (validateCookies s o req).2 →
      e.category = "validation" ∧ e.message = "Bad Request" ∧ e.statusCode = 400) ∧
    (∀ (s : ObjectSchema α) (o : Option ValidationOptions) (req : Request α)
        (e : RequestValidationMiddlewareError), NextCall.err e ∈ (validateHeaders s o req).2 →
      e.category = "validation" ∧ e.message = "Bad Request" ∧ e.statusCode = 400) ∧
    (∀ (s : ObjectSchema α) (o : Option ValidationOptions) (req : Request α)
        (e : RequestValidationMiddlewareError), NextCall.err e ∈ (validateParams s o req).2 →
      e.category = "validation" ∧ e.message = "Bad Request" ∧ e.statusCode = 400) ∧
    (∀ (s : ObjectSchema α) (o : Option ValidationOptions) (req : Request α)
        (e : RequestValidationMiddlewareError), NextCall.err e ∈ (validateQuery s o req).2 →
      e.category = "validation" ∧ e.message = "Bad Request" ∧ e.statusCode = 400) ∧
    (∀ (sch : IValidateAllSchema α) (o : Option ValidationOptions) (req : Request α)
        (e : RequestValidationMiddlewareError), NextCall.err e ∈ (validateAll sch o req).2 →
      e.category = "validation" ∧ e.message = "Bad Request" ∧ e.statusCode = 400) := by
  refine ⟨fun p => ⟨rfl, rfl, rfl, rfl⟩, ?_, ?_, ?_, ?_, ?_, ?_⟩
  · intro s o req e h
    simp only [validateBody] at h
    split at h
    · simp only [List.mem_singleton, NextCall.err.injEq] at h
      subst h
      exact ⟨rfl, rfl, rfl⟩
    · simp at h
  · intro s o req e h
    simp only [validateCookies] at h
    split at h
    · simp only [List.mem_singleton, NextCall.err.injEq] at h
      subst h
      exact ⟨rfl, rfl, rfl⟩
    · simp at h
  · intro s o req e h
    simp only [validateHeaders] at h
    split at h
    · simp only [List.mem_singleton, NextCall.err.injEq] at h
      subst h
      exact ⟨rfl, rfl, rfl⟩
    · simp at h
  · intro s o req e h
    simp only [validateParams] at h
    split at h
    · simp only [List.mem_singleton, NextCall.err.injEq] at h
      subst h
      exact ⟨rfl, rfl, rfl⟩
    · simp at h
  · intro s o req e h
    simp only [validateQuery] at h
    split at h
    · simp only [List.mem_singleton, NextCall.err.injEq] at h
      subst h
      exact ⟨rfl, rfl, rfl⟩
    · simp at h
  · intro sch o req e h
    simp only [validateAll] at h
    split at h
    · simp only [List.mem_singleton, NextCall.err.injEq] at h
      subst h
      exact ⟨rfl, rfl, rfl⟩
    · simp at h

/-- Witness for C6: the error emitted by `validateBody` on the concrete
failing request carries the three fixed fields. -/
theorem middleware_error_fixed_fields_witness :
    (mkRequestValidationMiddlewareError (ErrorsPayload.keyed
      ⟨some [vioName], none, none, none, none⟩)).category = "validation" ∧
    (mkRequestValidationMiddlewareError (ErrorsPayload.keyed
      ⟨some [vioName], none, none, none, none⟩)).message = "Bad Request" ∧
    (mkRequestValidationMiddlewareError (ErrorsPayload.keyed
      ⟨some [vioName], none, none, none, none⟩)).statusCode = 400 :=
  (@middleware_error_fixed_fields Nat).2.1 failOnZeroSchema none reqZero
    (mkRequestValidationMiddlewareError (ErrorsPayload.keyed
      ⟨some [vioName], none, none, none, none⟩)) (by decide)

/-- C1: evaluation of the source at a failing input. The body schema reports
two violations, yet `validateAll` called without an options override forwards
its absent options record to the engine unmerged, so the engine's own
stop-at-first-violation default applies and only one diagnostic is reported;
`validateBody` and the class-based `RequestValidator.validateAll`, which do
spread the collect-all baseline in, report both diagnostics on the same
input. -/
theorem validateAll_drops_baseline_options :
    twoFieldSchema.check 0 false = [vioName, vioEmail] ∧
    (validateAll bodyOnlySchemaSet none reqZero).2 =
      [NextCall.err (mkRequestValidationMiddlewareError (ErrorsPayload.keyed
        ⟨some [vioName], none, none, none, none⟩))] ∧
    (validateBody twoFieldSchema none reqZero).2 =
      [NextCall.err (mkRequestValidationMiddlewareError (ErrorsPayload.keyed
        ⟨some [vioName, vioEmail], none, none, none, none⟩))] ∧
    (RequestValidator.validateAll none bodyOnlySchemaSet none reqZero).2 =
      [NextCall.err (mkRequestValidationMiddlewareError (ErrorsPayload.keyed
        ⟨some [vioName, vioEmail], none, none, none, none⟩))] :=
  ⟨rfl, rfl, rfl, rfl⟩

/-- C4: in an Aggregate Validator run where sections A and B hold schemas
that fail and section C holds a schema that passes while section D is
unmapped, the continuation receives the MiddlewareError carrying the full
per-section record, whose entries for A and B are their diagnostics while C
and D hold no failing entry. -/
theorem aggregate_error_per_section {α : Type} (sch : IValidateAllSchema α) (req : Request α)
    (o : Option ValidationOptions) (A B C D : Sect) (sA sB sC : ObjectSchema α)
    (dA dB : List Violation)
    (hA : sch.get A = some sA) (hAf : (sA.validate (req.get A) o).error = some dA)
    (hB : sch.get B = some sB) (hBf : (sB.validate (req.get B) o).error = some dB)
    (hC : sch.get C = some sC) (hCp : (sC.validate (req.get C) o).error = none)
    (hD : sch.get D = none) :
    (validateAll sch o req).2 = [NextCall.err (mkRequestValidationMiddlewareError
      (ErrorsPayload.keyed (aggregatePayload sch req o)))] ∧
    (aggregatePayload sch req o).get A = some dA ∧
    (aggregatePayload sch req o).get B = some dB ∧
    (aggregatePayload sch req o).get C = none ∧
    (aggregatePayload sch req o).get D = none := by
  have hOA : sectionOutcome sch req o A = some dA := by
    unfold sectionOutcome
    rw [hA]
    simpa using hAf
  have hOB : sectionOutcome sch req o B = some dB := by
    unfold sectionOutcome
    rw [hB]
    simpa using hBf
  have hOC : sectionOutcome sch req o C = none := by
    unfold sectionOutcome
    rw [hC]
    simpa using hCp
  have hOD : sectionOutcome sch req o D = none := by
    unfold sectionOutcome
    rw [hD]
    rfl
  have hAll := getAllValidationErrors_isSome_of_outcome sch req o A dA hOA
  refine ⟨?_, ?_, ?_, ?_, ?_⟩
  · simp only [validateAll, hAll]
  · rw [aggregatePayload_get]
    exact hOA
  · rw [aggregatePayload_get]
    exact hOB
  · rw [aggregatePayload_get]
    exact hOC
  · rw [aggregatePayload_get]
    exact hOD

/-- Witness for C4: on `mixedSchemaSet` and `reqZero`, body and cookies fail
with their diagnostics, headers (mapped, passing) holds no failing entry, and
params (unmapped) holds no entry. -/
theorem aggregate_error_per_section_witness :
    (validateAll mixedSchemaSet none reqZero).2 = [NextCall.err (mkRequestValidationMiddlewareError
      (ErrorsPayload.keyed (aggregatePayload mixedSchemaSet reqZero none)))] ∧
    (aggregatePayload mixedSchemaSet reqZero none).get Sect.body = some [vioName] ∧
    (aggregatePayload mixedSchemaSet reqZero none).get Sect.cookies = some [vioName] ∧
    (aggregatePayload mixedSchemaSet reqZero none).get Sect.headers = none ∧
    (aggregatePayload mixedSchemaSet reqZero none).get Sect.params = none :=
  aggregate_error_per_section mixedSchemaSet reqZero none .body .cookies .headers .params
    failOnZeroSchema failOnZeroSchema passSchema [vioName] [vioName]
    rfl (by decide) rfl (by decide) rfl (by decide) rfl

/-- Counterexample to C7 as stated: on a concrete failing run of
`validateBody`, the MiddlewareError's errors field is a section-keyed record
and is not the bare diagnostics value the specification ascribes to
single-section validators. -/
theorem single_section_payload_not_raw :
    (validateBody failOnZeroSchema none reqZero).2 = [NextCall.err (mkRequestValidationMiddlewareError
      (ErrorsPayload.keyed ⟨some [vioName], none, none, none, none⟩))] ∧
    (mkRequestValidationMiddlewareError (ErrorsPayload.keyed
      ⟨some [vioName], none, none, none, none⟩)).errors.isRaw = false ∧
    (mkRequestValidationMiddlewareError (ErrorsPayload.keyed
      ⟨some [vioName], none, none, none, none⟩)).errors ≠ singleSectionPayloadSpec [vioName] := by
  refine ⟨rfl, rfl, ?_⟩
  intro h
  cases h

/-- C7 (amended): both validator kinds key the errors field by section name:
a failing single-section validator stores a record in which only its own
section is populated, with that section's raw diagnostics as the value, and
the Aggregate Validator stores the full per-section record. -/
theorem errors_payload_shapes {α : Type} :
    (∀ (s : ObjectSchema α) (o : Option ValidationOptions) (req : Request α)
        (e : RequestValidationMiddlewareError), NextCall.err e ∈ (validateBody s o req).2 →
      e.errors = ErrorsPayload.keyed ⟨getBodyValidationErrors s req.body
        (some (spreadOptions commonValidatorOptions o)), none, none, none, none⟩) ∧
    (∀ (s : ObjectSchema α) (o : Option ValidationOptions) (req : Request α)
        (e : RequestValidationMiddlewareError), NextCall.err e ∈ (validateCookies s o req).2 →
      e.errors = ErrorsPayload.keyed ⟨none, getCookiesValidationErrors s req.cookies
        (some (spreadOptions commonValidatorOptions o)), none, none, none⟩) ∧
    (∀ (s : ObjectSchema α) (o : Option ValidationOptions) (req : Request α)
        (e : RequestValidationMiddlewareError), NextCall.err e ∈ (validateHeaders s o req).2 →
      e.errors = ErrorsPayload.keyed ⟨none, none, getHeadersValidationErrors s req.headers
        (some (spreadOptions commonValidatorOptions o)), none, none⟩) ∧
    (∀ (s : ObjectSchema α) (o : Option ValidationOptions) (req : Request α)
        (e : RequestValidationMiddlewareError), NextCall.err e ∈ (validateParams s o req).2 →
      e.errors = ErrorsPayload.keyed ⟨none, none, none, getParamsValidationErrors s req.params
        (some (spreadOptions commonValidatorOptions o)), none⟩) ∧
    (∀ (s : ObjectSchema α) (o : Option ValidationOptions) (req : Request α)
        (e : RequestValidationMiddlewareError), NextCall.err e ∈ (validateQuery s o req).2 →
      e.errors = ErrorsPayload.keyed ⟨none, none, none, none, getQueryValidationErrors s req.query
        (some (spreadOptions commonValidatorOptions o))⟩) ∧
    (∀ (sch : IValidateAllSchema α) (o : Option ValidationOptions) (req : Request α)
        (e : RequestValidationMiddlewareError), NextCall.err e ∈ (validateAll sch o req).2 →
      e.errors = ErrorsPayload.keyed (aggregatePayload sch req o)) := by
  refine ⟨?_, ?_, ?_, ?_, ?_, ?_⟩
  · intro s o req e h
    simp only [validateBody] at h
    split at h
    · simp only [List.mem_singleton, NextCall.err.injEq] at h
      subst h
      rfl
    · simp at h
  · intro s o req e h
    simp only [validateCookies] at h
    split at h
    · simp only [List.mem_singleton, NextCall.err.injEq] at h
      subst h
      rfl
    · simp at h
  · intro s o req e h
    simp only [validateHeaders] at h
    split at h
    · simp only [List.mem_singleton, NextCall.err.injEq] at h
      subst h
      rfl
    · simp at h
  · intro s o req e h
    simp only [validateParams] at h
    split at h
    · simp only [List.mem_singleton, NextCall.err.injEq] at h
      subst h
      rfl
    · simp at h
  · intro s o req e h
    simp only [validateQuery] at h
    split at h
    · simp only [List.mem_singleton, NextCall.err.injEq] at h
      subst h
      rfl
    · simp at h
  · intro sch o req e h
    simp only [validateAll] at h
    split at h
    next r heq =>
      simp only [List.mem_singleton, NextCall.err.injEq] at h
      subst h
      rw [getAllValidationErrors_eq] at heq
      split at heq
      · injection heq with h2
        rw [← h2]
        rfl
      · exact Option.noConfusion heq
    next heq =>
      simp at h

/-- Witness for C7: at the concrete failing runs, the single-section payload
populates only its own section and the aggregate payload is the full
per-section record. -/
theorem errors_payload_shapes_witness :
    (mkRequestValidationMiddlewareError (ErrorsPayload.keyed
      ⟨some [vioName], none, none, none, none⟩)).errors =
      ErrorsPayload.keyed ⟨getBodyValidationErrors failOnZeroSchema reqZero.body
        (some (spreadOptions commonValidatorOptions none)), none, none, none, none⟩ ∧
    (mkRequestValidationMiddlewareError (ErrorsPayload.keyed
      (aggregatePayload mixedSchemaSet reqZero none))).errors =
      ErrorsPayload.keyed (aggregatePayload mixedSchemaSet reqZero none) :=
  ⟨(@errors_payload_shapes Nat).1 failOnZeroSchema none reqZero
    (mkRequestValidationMiddlewareError (ErrorsPayload.keyed
      ⟨some [vioName], none, none, none, none⟩)) (by decide),
   (@errors_payload_shapes Nat).2.2.2.2.2 mixedSchemaSet none reqZero
    (mkRequestValidationMiddlewareError (ErrorsPayload.keyed
      (aggregatePayload mixedSchemaSet reqZero none))) (by decide)⟩

end ExpressJoiValidation
